import Mathlib

/-
Verification of the harmonic equivalent-layer gridder
(harmonica/equivalent_layer/harmonic.py).

Shallow embedding: numpy float arrays become lists of real numbers,
a coordinate triple (easting, northing, vertical) becomes a `Coords`
structure, the numba kernels become Lean functions over those lists,
and the `HarmonicEQL` instance attributes become a `ModelState`
record with `Option` fields for the attributes that exist only after
a fit.  External collaborators (verde `check_fit_input`,
`get_region`, `least_squares`; sklearn `check_is_fitted`) are
modelled at their call sites: validation becomes equal-length
hypotheses, the solver becomes an explicit fallible argument, and the
fitted-attribute guard becomes a check on the `Option` field.
-/

set_option maxHeartbeats 1000000

/-- A coordinate triple: three sequences (easting, northing, vertical)
describing points in Cartesian space.  Observation points and point
sources both use this shape. -/
structure Coords where
  east : List ℝ
  north : List ℝ
  vertical : List ℝ

/-- Number of points: the code uses `coordinates[0].size`,
i.e. the length of the easting array. -/
def Coords.size (c : Coords) : ℕ := c.east.length

/-- Embedding of `distance` (harmonic.py lines 223-233): Euclidean
distance between two 3D points given by their six scalar coordinates. -/
noncomputable def distance (east_1 north_1 vertical_1 east_2 north_2 vertical_2 : ℝ) : ℝ :=
  Real.sqrt
    ((east_1 - east_2) ^ 2
      + (north_1 - north_2) ^ 2
      + (vertical_1 - vertical_2) ^ 2)

/-- Embedding of `greens_func` (lines 196-201): inverse distance. -/
noncomputable def greens_func
    (east north vertical point_east point_north point_vertical : ℝ) : ℝ :=
  1 / distance east north vertical point_east point_north point_vertical

/-- Distance between observation point `i` and observation point `j`
of a coordinate triple, as read by the numba kernels (index access on
the three parallel arrays). -/
noncomputable def obsDist (c : Coords) (i j : ℕ) : ℝ :=
  distance (c.east.getD i 0) (c.north.getD i 0) (c.vertical.getD i 0)
    (c.east.getD j 0) (c.north.getD j 0) (c.vertical.getD j 0)

/-- One update of the inner loop of `distance_to_nearest_point`
(lines 247-253): when `j ≠ i` and the distance to point `j` is below
the current minimum, replace it. -/
noncomputable def nearStep (d : ℕ → ℝ) (i : ℕ) (acc : ℝ) (j : ℕ) : ℝ :=
  if i ≠ j then (if d j < acc then d j else acc) else acc

/-- Embedding of the per-index body of `distance_to_nearest_point`
(lines 242-253): seed with the distance to point `i - 1` (negative
indexing wraps to the last point when `i = 0`), then scan all `j ≠ i`
keeping the minimum. -/
noncomputable def nearestAt (c : Coords) (i : ℕ) : ℝ :=
  (List.range c.size).foldl (nearStep (obsDist c i) i)
    (obsDist c i ((i + c.size - 1) % c.size))

/-- Embedding of `distance_to_nearest_point` (lines 236-253): the
output array, one entry per observation point. -/
noncomputable def distance_to_nearest_point (c : Coords) : List ℝ :=
  (List.range c.size).map (nearestAt c)

/-- Embedding of the default point placement in `fit`
(lines 99-108): same easting and northing as the observations, and the
vertical coordinate lowered by `depth_factor` times the
nearest-neighbor distance. -/
noncomputable def defaultPoints (c : Coords) (depth_factor : ℝ) : Coords :=
  { east := c.east
    north := c.north
    vertical :=
      List.zipWith (fun v nd => v - depth_factor * nd)
        c.vertical (distance_to_nearest_point c) }

/-- Embedding of `HarmonicEQL.jacobian` together with the
`jacobian_numba` kernel that fills the allocated matrix
(lines 144-174 and 204-220): row `i`, column `j` holds the inverse
distance between data point `i` and source `j`. -/
noncomputable def jacobian_matrix (c points : Coords) : List (List ℝ) :=
  (List.range c.size).map fun i =>
    (List.range points.size).map fun j =>
      greens_func (c.east.getD i 0) (c.north.getD i 0) (c.vertical.getD i 0)
        (points.east.getD j 0) (points.north.getD j 0) (points.vertical.getD j 0)

/-- Embedding of `predict_numba` (lines 177-193): accumulate
`coeffs[j] * greens(query_i, source_j)` into each entry of the
zero-initialised result array allocated in `predict`. -/
noncomputable def predict_numba (c points : Coords) (coeffs : List ℝ) : List ℝ :=
  (List.range c.size).map fun i =>
    (List.range points.size).foldl
      (fun acc j =>
        acc + coeffs.getD j 0
          * greens_func (c.east.getD i 0) (c.north.getD i 0) (c.vertical.getD i 0)
              (points.east.getD j 0) (points.north.getD j 0) (points.vertical.getD j 0))
      0

/-- The bounding box captured by verde `get_region` (external
collaborator): west and east bounds of the eastings, south and north
bounds of the northings. -/
structure Region where
  west : ℝ
  eastBound : ℝ
  south : ℝ
  northBound : ℝ

/-- Smallest entry of a list of reals, seeded at its first element. -/
noncomputable def listMin (l : List ℝ) : ℝ := l.foldl min (l.getD 0 0)

/-- Largest entry of a list of reals, seeded at its first element. -/
noncomputable def listMax (l : List ℝ) : ℝ := l.foldl max (l.getD 0 0)

/-- External collaborator verde `get_region`, called at line 97 on the
first two coordinate arrays. -/
noncomputable def get_region (c : Coords) : Region :=
  ⟨listMin c.east, listMax c.east, listMin c.north, listMax c.north⟩

/-- The error sklearn `check_is_fitted` raises when the model lacks
its fitted attributes. -/
inductive FitError where
  | NotFitted
deriving DecidableEq

/-- The attributes of a `HarmonicEQL` instance: the constructor
parameters (lines 62-65) and the fitted attributes, present only after
the corresponding assignment in `fit` has run. -/
structure ModelState where
  damping : Option ℝ
  points : Option Coords
  depth_factor : ℝ
  points_ : Option Coords := none
  coefs_ : Option (List ℝ) := none
  region_ : Option Region := none

/-- The point source set `fit` installs: the default placement when
`points is None` (lines 99-108), otherwise the user-supplied points
(line 110; the ravel is the identity on the flat sequences of this
embedding). -/
noncomputable def pointsUsed (m : ModelState) (c : Coords) : Coords :=
  match m.points with
  | none => defaultPoints c m.depth_factor
  | some p => p

/-- Embedding of `HarmonicEQL.fit` (lines 67-113) as a state
transformer with explicit exception propagation.  `least_squares` is
an external collaborator, passed in as a fallible `solver` taking the
jacobian, the data, the weights and the damping; `none` models the
solver raising.  The returned state is the attribute state of the
instance when the call returns or when the exception escapes; the
boolean records success.  Line 97 installs `region_`, lines 99-110
install `points_`, and only then does line 112 run the solve and, on
success, install `coefs_`. -/
noncomputable def HarmonicEQL_fit
    (solver : List (List ℝ) → List ℝ → Option (List ℝ) → Option ℝ → Option (List ℝ))
    (m : ModelState) (c : Coords) (data : List ℝ) (weights : Option (List ℝ)) :
    ModelState × Bool :=
  let m₁ : ModelState := { m with region_ := some (get_region c) }
  let pts := pointsUsed m c
  let m₂ : ModelState := { m₁ with points_ := some pts }
  let jac := jacobian_matrix c pts
  match solver jac data weights m.damping with
  | some coefs => ({ m₂ with coefs_ := some coefs }, true)
  | none => (m₂, false)

/-- Embedding of `HarmonicEQL.predict` (lines 115-142): sklearn
`check_is_fitted(self, ["coefs_"])` becomes the check that `coefs_`
is present; the body then reads `points_` unguarded, exactly as the
source does (`getD` supplies the attribute lookup). -/
noncomputable def HarmonicEQL_predict (m : ModelState) (c : Coords) :
    Except FitError (List ℝ) :=
  match m.coefs_ with
  | none => Except.error FitError.NotFitted
  | some coefs => Except.ok (predict_numba c (m.points_.getD ⟨[], [], []⟩) coefs)

/-- Embedding of `HarmonicEQL.jacobian` as a method call
(lines 144-174): the method reads no fitted attribute; coordinates
and points are explicit arguments and the matrix is always built.
The `Except` wrapper records that no fitted-state guard fires. -/
noncomputable def HarmonicEQL_jacobian (m : ModelState) (c points : Coords) :
    Except FitError (List (List ℝ)) :=
  Except.ok (jacobian_matrix c points)

/-- `predict` as a call on the instance: the method body assigns no
attribute, so the post-call state is the pre-call state. -/
noncomputable def predict_call (m : ModelState) (c : Coords) :
    Except FitError (List ℝ) × ModelState :=
  (HarmonicEQL_predict m c, m)

/-- `jacobian` as a call on the instance: likewise assignment-free. -/
noncomputable def jacobian_call (m : ModelState) (c points : Coords) :
    Except FitError (List (List ℝ)) × ModelState :=
  (HarmonicEQL_jacobian m c points, m)

/-- A store of numpy array buffers: contents per identifier, plus the
next fresh identifier.  Used to state the frame property of `fit` at
the buffer level, where `.copy()` versus in-place subtraction
matters. -/
structure Heap where
  arrays : ℕ → List ℝ
  fresh : ℕ

/-- In-place overwrite of a whole buffer. -/
noncomputable def Heap.write (h : Heap) (r : ℕ) (v : List ℝ) : Heap :=
  ⟨fun j => if j = r then v else h.arrays j, h.fresh⟩

/-- Allocation of a new buffer (`np.zeros`, `.copy()`). -/
noncomputable def Heap.alloc (h : Heap) (v : List ℝ) : Heap × ℕ :=
  (⟨fun j => if j = h.fresh then v else h.arrays j, h.fresh + 1⟩, h.fresh)

/-- Buffer-level embedding of the default placement block of `fit`
(lines 102-108): `nearest_distances` is a fresh buffer filled in
place; `point_east`, `point_north`, `point_vertical` are `.copy()`
allocations from the observation buffers; the in-place subtraction at
line 107 writes into the `point_vertical` copy only.  Returns the
final store and the identifiers of the three source buffers. -/
noncomputable def fitPlacementHeap (h₀ : Heap) (eid nid vid : ℕ) (df : ℝ) :
    Heap × ℕ × ℕ × ℕ :=
  let c : Coords := ⟨h₀.arrays eid, h₀.arrays nid, h₀.arrays vid⟩
  let a₁ := h₀.alloc (distance_to_nearest_point c)
  let a₂ := a₁.1.alloc (a₁.1.arrays eid)
  let a₃ := a₂.1.alloc (a₂.1.arrays nid)
  let a₄ := a₃.1.alloc (a₃.1.arrays vid)
  let h₅ := a₄.1.write a₄.2
    (List.zipWith (fun v nd => v - df * nd) (a₄.1.arrays a₄.2) (a₄.1.arrays a₁.2))
  (h₅, a₂.2, a₃.2, a₄.2)

/-- A previously fitted model used to probe failure behaviour: its
user-supplied `points` differ from the currently installed `points_`. -/
noncomputable def prevModel : ModelState :=
  { damping := none
    points := some ⟨[5], [5], [-10]⟩
    depth_factor := 3
    points_ := some ⟨[9], [9], [-9]⟩
    coefs_ := some [1]
    region_ := some ⟨0, 0, 0, 0⟩ }

/-- A freshly constructed, never-fitted model (constructor defaults,
lines 62-65). -/
noncomputable def unfittedModel : ModelState :=
  { damping := none, points := none, depth_factor := 3 }

/-- The solver collaborator that always raises. -/
def failSolver : List (List ℝ) → List ℝ → Option (List ℝ) → Option ℝ → Option (List ℝ) :=
  fun _ _ _ _ => none

/-- A single observation point at the origin. -/
noncomputable def oneObs : Coords := ⟨[0], [0], [0]⟩

/-- A single source point at (1, 0, 0). -/
noncomputable def srcOne : Coords := ⟨[1], [0], [0]⟩

/-- Two observation points at (0,0,0) and (10,0,0), the concrete
default-placement scenario of the spec. -/
noncomputable def twoObs : Coords := ⟨[0, 10], [0, 0], [0, 0]⟩

/-- C8: the distance kernel is non-negative, zero on equal points,
symmetric, and zero only on equal points. -/
theorem C8_distance_metric_properties (e₁ n₁ v₁ e₂ n₂ v₂ : ℝ) :
    0 ≤ distance e₁ n₁ v₁ e₂ n₂ v₂ ∧
    distance e₁ n₁ v₁ e₁ n₁ v₁ = 0 ∧
    distance e₁ n₁ v₁ e₂ n₂ v₂ = distance e₂ n₂ v₂ e₁ n₁ v₁ ∧
    (distance e₁ n₁ v₁ e₂ n₂ v₂ = 0 → e₁ = e₂ ∧ n₁ = n₂ ∧ v₁ = v₂) := by
  refine ⟨Real.sqrt_nonneg _, by simp [distance], ?_, ?_⟩
  · unfold distance
    ring_nf
  · intro h
    unfold distance at h
    have hsum : (e₁ - e₂) ^ 2 + (n₁ - n₂) ^ 2 + (v₁ - v₂) ^ 2 = 0 := by
      have h1 := sq_nonneg (e₁ - e₂)
      have h2 := sq_nonneg (n₁ - n₂)
      have h3 := sq_nonneg (v₁ - v₂)
      have := Real.sqrt_eq_zero (by nlinarith) |>.mp h
      linarith
    have h1 := sq_nonneg (e₁ - e₂)
    have h2 := sq_nonneg (n₁ - n₂)
    have h3 := sq_nonneg (v₁ - v₂)
    refine ⟨?_, ?_, ?_⟩ <;> nlinarith [sq_abs (e₁ - e₂), sq_abs (n₁ - n₂), sq_abs (v₁ - v₂)]

/-- Symmetry of the distance kernel, shared helper. -/
theorem distance_symm (e₁ n₁ v₁ e₂ n₂ v₂ : ℝ) :
    distance e₁ n₁ v₁ e₂ n₂ v₂ = distance e₂ n₂ v₂ e₁ n₁ v₁ := by
  unfold distance
  ring_nf

/-- C9: the Green function kernel is symmetric for distinct points. -/
theorem C9_greens_symmetric (e₁ n₁ v₁ e₂ n₂ v₂ : ℝ)
    (hne : ¬(e₁ = e₂ ∧ n₁ = n₂ ∧ v₁ = v₂)) :
    greens_func e₁ n₁ v₁ e₂ n₂ v₂ = greens_func e₂ n₂ v₂ e₁ n₁ v₁ := by
  unfold greens_func
  rw [distance_symm]

/-- Witness for C9 at the concrete pair (0,0,0), (1,0,0). -/
theorem C9_greens_symmetric_witness :
    ¬((0 : ℝ) = 1 ∧ (0 : ℝ) = 0 ∧ (0 : ℝ) = 0) ∧
    greens_func 0 0 0 1 0 0 = greens_func 1 0 0 0 0 0 := by
  constructor
  · intro h
    exact absurd h.1 (by norm_num)
  · exact C9_greens_symmetric 0 0 0 1 0 0 (by intro h; exact absurd h.1 (by norm_num))

theorem nearStep_le (d : ℕ → ℝ) (i j : ℕ) (acc : ℝ) : nearStep d i acc j ≤ acc := by
  unfold nearStep
  split
  · split
    · linarith
    · exact le_rfl
  · exact le_rfl

theorem nearStep_le_d (d : ℕ → ℝ) (i j : ℕ) (acc : ℝ) (h : i ≠ j) :
    nearStep d i acc j ≤ d j := by
  unfold nearStep
  rw [if_pos h]
  split
  · exact le_rfl
  · exact not_lt.mp (by assumption)

theorem nearFold_le_init (d : ℕ → ℝ) (i : ℕ) (l : List ℕ) :
    ∀ acc, l.foldl (nearStep d i) acc ≤ acc := by
  induction l with
  | nil => intro acc; simp
  | cons x xs ih =>
    intro acc
    rw [List.foldl_cons]
    calc xs.foldl (nearStep d i) (nearStep d i acc x) ≤ nearStep d i acc x := ih _
      _ ≤ acc := nearStep_le d i x acc

theorem nearFold_le_mem (d : ℕ → ℝ) (i : ℕ) (l : List ℕ) :
    ∀ acc j, j ∈ l → i ≠ j → l.foldl (nearStep d i) acc ≤ d j := by
  induction l with
  | nil => intro acc j hj _; exact absurd hj (List.not_mem_nil j)
  | cons x xs ih =>
    intro acc j hj hij
    rw [List.foldl_cons]
    rcases List.mem_cons.mp hj with h | h
    · subst h
      calc xs.foldl (nearStep d i) (nearStep d i acc j)
            ≤ nearStep d i acc j := nearFold_le_init d i xs _
        _ ≤ d j := nearStep_le_d d i j acc hij
    · exact ih _ j h hij

theorem nearFold_mem (d : ℕ → ℝ) (i : ℕ) (l : List ℕ) :
    ∀ acc, l.foldl (nearStep d i) acc = acc ∨
      ∃ j ∈ l, i ≠ j ∧ l.foldl (nearStep d i) acc = d j := by
  induction l with
  | nil => intro acc; exact Or.inl rfl
  | cons x xs ih =>
    intro acc
    rw [List.foldl_cons]
    rcases ih (nearStep d i acc x) with h | ⟨j, hj, hij, h⟩
    · rw [h]
      unfold nearStep
      split
      · split
        · exact Or.inr ⟨x, List.mem_cons_self x xs, by assumption, rfl⟩
        · exact Or.inl rfl
      · exact Or.inl rfl
    · exact Or.inr ⟨j, List.mem_cons_of_mem x hj, hij, h⟩

theorem prev_idx_valid (i n : ℕ) (hi : i < n) (h2 : 2 ≤ n) :
    (i + n - 1) % n < n ∧ (i + n - 1) % n ≠ i := by
  have hn : 0 < n := by omega
  constructor
  · exact Nat.mod_lt _ hn
  · rcases Nat.eq_zero_or_pos i with h0 | hpos
    · subst h0
      simp only [Nat.zero_add]
      rw [Nat.mod_eq_of_lt (by omega)]
      omega
    · have hrw : i + n - 1 = (i - 1) + n := by omega
      rw [hrw, Nat.add_mod_right, Nat.mod_eq_of_lt (by omega)]
      omega

/-- For `2 ≤ n` and `i < n`, the scan of `distance_to_nearest_point`
computes exactly the minimum over `j ≠ i` of the pairwise distances:
it is attained at some valid `j ≠ i` and bounds all of them. -/
theorem nearestAt_is_min (c : Coords) (i : ℕ) (hi : i < c.size) (h2 : 2 ≤ c.size) :
    (∃ j, j < c.size ∧ j ≠ i ∧ nearestAt c i = obsDist c i j) ∧
    (∀ j, j < c.size → j ≠ i → nearestAt c i ≤ obsDist c i j) := by
  obtain ⟨hplt, hpne⟩ := prev_idx_valid i c.size hi h2
  constructor
  · rcases nearFold_mem (obsDist c i) i (List.range c.size)
        (obsDist c i ((i + c.size - 1) % c.size)) with h | ⟨j, hj, hij, h⟩
    · exact ⟨(i + c.size - 1) % c.size, hplt, hpne, h⟩
    · exact ⟨j, List.mem_range.mp hj, fun he => hij he.symm, h⟩
  · intro j hj hji
    exact nearFold_le_mem (obsDist c i) i (List.range c.size) _ j
      (List.mem_range.mpr hj) (fun he => hji he.symm)

theorem getD_map_range {α : Type} (f : ℕ → α) (d : α) (n i : ℕ) (hi : i < n) :
    ((List.range n).map f).getD i d = f i := by
  rw [List.getD_eq_getElem _ _ (by simpa using hi)]
  simp

theorem getD_zipWith (f : ℝ → ℝ → ℝ) (a b : List ℝ) (i : ℕ)
    (ha : i < a.length) (hb : i < b.length) :
    (List.zipWith f a b).getD i 0 = f (a.getD i 0) (b.getD i 0) := by
  rw [List.getD_eq_getElem _ _ (by simp [ha, hb]),
    List.getD_eq_getElem _ _ ha, List.getD_eq_getElem _ _ hb,
    List.getElem_zipWith]

theorem fold_add_range (g : ℕ → ℝ) (n : ℕ) :
    ∀ a : ℝ, (List.range n).foldl (fun acc j => acc + g j) a
      = a + ∑ j in Finset.range n, g j := by
  induction n with
  | zero => intro a; simp
  | succ k ih =>
    intro a
    rw [List.range_succ, List.foldl_append, ih, Finset.sum_range_succ]
    simp [List.foldl]
    ring

theorem range_one_eq : List.range 1 = [0] := rfl

/-- Whatever the solver does, `fit` installs the derived (or supplied)
point source set before the solve runs. -/
theorem fit_installs_points
    (solver : List (List ℝ) → List ℝ → Option (List ℝ) → Option ℝ → Option (List ℝ))
    (m : ModelState) (c : Coords) (data : List ℝ) (w : Option (List ℝ)) :
    (HarmonicEQL_fit solver m c data w).1.points_ = some (pointsUsed m c) := by
  simp only [HarmonicEQL_fit]
  cases solver (jacobian_matrix c (pointsUsed m c)) data w m.damping <;> rfl

/-- C1: with `points = None` and at least two observations, `fit`
derives one source per observation: the source set installed as
`points_` keeps the observation eastings and northings, and its
vertical coordinate at index i is the observation vertical minus
`depth_factor` times the nearest-neighbor distance, where that
distance is exactly the minimum over `j ≠ i` of the pairwise
observation distances (attained and a lower bound). -/
theorem C1_default_point_placement
    (solver : List (List ℝ) → List ℝ → Option (List ℝ) → Option ℝ → Option (List ℝ))
    (m : ModelState) (c : Coords) (data : List ℝ) (w : Option (List ℝ))
    (hpts : m.points = none)
    (hn : c.north.length = c.size) (hv : c.vertical.length = c.size)
    (h2 : 2 ≤ c.size) :
    (HarmonicEQL_fit solver m c data w).1.points_
        = some (defaultPoints c m.depth_factor) ∧
    (defaultPoints c m.depth_factor).east = c.east ∧
    (defaultPoints c m.depth_factor).north = c.north ∧
    (defaultPoints c m.depth_factor).vertical.length = c.size ∧
    ∀ i, i < c.size →
      ((defaultPoints c m.depth_factor).vertical.getD i 0
          = c.vertical.getD i 0 - m.depth_factor * nearestAt c i ∧
        (∃ j, j < c.size ∧ j ≠ i ∧ nearestAt c i = obsDist c i j) ∧
        (∀ j, j < c.size → j ≠ i → nearestAt c i ≤ obsDist c i j)) := by
  refine ⟨?_, rfl, rfl, ?_, ?_⟩
  · rw [fit_installs_points]
    simp [pointsUsed, hpts]
  · simp [defaultPoints, distance_to_nearest_point, hv]
  · intro i hi
    refine ⟨?_, nearestAt_is_min c i hi h2⟩
    unfold defaultPoints
    rw [getD_zipWith _ _ _ i (by omega) (by simpa [distance_to_nearest_point] using hi)]
    simp only [distance_to_nearest_point]
    rw [getD_map_range _ _ _ i hi]

/-- Witness for C1: two observations at (0,0,0) and (10,0,0), a
never-fitted model (so `points = None`) and the always-failing
solver. -/
theorem C1_default_point_placement_witness :
    unfittedModel.points = none ∧
    twoObs.north.length = twoObs.size ∧
    twoObs.vertical.length = twoObs.size ∧
    2 ≤ twoObs.size ∧
    ((HarmonicEQL_fit failSolver unfittedModel twoObs [1, 1] none).1.points_
        = some (defaultPoints twoObs unfittedModel.depth_factor) ∧
      (defaultPoints twoObs unfittedModel.depth_factor).east = twoObs.east ∧
      (defaultPoints twoObs unfittedModel.depth_factor).north = twoObs.north ∧
      (defaultPoints twoObs unfittedModel.depth_factor).vertical.length = twoObs.size ∧
      ∀ i, i < twoObs.size →
        ((defaultPoints twoObs unfittedModel.depth_factor).vertical.getD i 0
            = twoObs.vertical.getD i 0 - unfittedModel.depth_factor * nearestAt twoObs i ∧
          (∃ j, j < twoObs.size ∧ j ≠ i ∧ nearestAt twoObs i = obsDist twoObs i j) ∧
          (∀ j, j < twoObs.size → j ≠ i → nearestAt twoObs i ≤ obsDist twoObs i j))) :=
  ⟨rfl, rfl, rfl, by norm_num [twoObs, Coords.size],
    C1_default_point_placement failSolver unfittedModel twoObs [1, 1] none rfl rfl rfl
      (by norm_num [twoObs, Coords.size])⟩

/-- C3: the code has no sentinel for a single observation.  The scan
seeds the minimum with the distance to index `i - 1`, which for
`n = 1` wraps to the point itself, so the nearest distance is 0, the
derived source keeps the observation vertical coordinate (it is not
strictly below), and the observation-source distance is 0, reaching
the division-by-zero branch of the kernel. -/
theorem C3_singleton_no_sentinel :
    nearestAt oneObs 0 = 0 ∧
    (defaultPoints oneObs 3).east = [0] ∧
    (defaultPoints oneObs 3).north = [0] ∧
    (defaultPoints oneObs 3).vertical = [0] ∧
    distance 0 0 0 0 0 0 = 0 := by
  refine ⟨?_, rfl, rfl, ?_, ?_⟩
  · simp [nearestAt, oneObs, Coords.size, nearStep, obsDist, distance, range_one_eq]
  · simp [defaultPoints, distance_to_nearest_point, oneObs, Coords.size, nearestAt,
      nearStep, obsDist, distance, range_one_eq]
  · norm_num [distance, Real.sqrt_zero]

/-- C5: the jacobian is a dense matrix of shape (n_data, n_points)
whose entry at row i, column j is the inverse distance between data
point i and source j. -/
theorem C5_jacobian_shape_entries (c pts : Coords)
    (hnc : ∀ i j, i < c.size → j < pts.size →
      distance (c.east.getD i 0) (c.north.getD i 0) (c.vertical.getD i 0)
        (pts.east.getD j 0) (pts.north.getD j 0) (pts.vertical.getD j 0) ≠ 0) :
    (jacobian_matrix c pts).length = c.size ∧
    (∀ i, i < c.size → ((jacobian_matrix c pts).getD i []).length = pts.size) ∧
    (∀ i j, i < c.size → j < pts.size →
      ((jacobian_matrix c pts).getD i []).getD j 0
        = 1 / distance (c.east.getD i 0) (c.north.getD i 0) (c.vertical.getD i 0)
            (pts.east.getD j 0) (pts.north.getD j 0) (pts.vertical.getD j 0)) := by
  refine ⟨by simp [jacobian_matrix], ?_, ?_⟩
  · intro i hi
    unfold jacobian_matrix
    rw [getD_map_range _ _ _ i hi]
    simp
  · intro i j hi hj
    unfold jacobian_matrix
    rw [getD_map_range _ _ _ i hi, getD_map_range _ _ _ j hj]
    rfl

/-- Witness for C5 at one observation at the origin and one source at
(1, 0, 0), a non-coincident pair. -/
theorem C5_jacobian_shape_entries_witness :
    (∀ i j, i < oneObs.size → j < srcOne.size →
      distance (oneObs.east.getD i 0) (oneObs.north.getD i 0) (oneObs.vertical.getD i 0)
        (srcOne.east.getD j 0) (srcOne.north.getD j 0) (srcOne.vertical.getD j 0) ≠ 0) ∧
    ((jacobian_matrix oneObs srcOne).length = oneObs.size ∧
      (∀ i, i < oneObs.size →
        ((jacobian_matrix oneObs srcOne).getD i []).length = srcOne.size) ∧
      (∀ i j, i < oneObs.size → j < srcOne.size →
        ((jacobian_matrix oneObs srcOne).getD i []).getD j 0
          = 1 / distance (oneObs.east.getD i 0) (oneObs.north.getD i 0)
              (oneObs.vertical.getD i 0)
              (srcOne.east.getD j 0) (srcOne.north.getD j 0) (srcOne.vertical.getD j 0))) := by
  have hnc : ∀ i j, i < oneObs.size → j < srcOne.size →
      distance (oneObs.east.getD i 0) (oneObs.north.getD i 0) (oneObs.vertical.getD i 0)
        (srcOne.east.getD j 0) (srcOne.north.getD j 0) (srcOne.vertical.getD j 0) ≠ 0 := by
    intro i j hi hj
    have hi0 : i = 0 := by simpa [oneObs, Coords.size] using hi
    have hj0 : j = 0 := by simpa [srcOne, Coords.size] using hj
    subst hi0
    subst hj0
    norm_num [oneObs, srcOne, distance, Real.sqrt_one]
  exact ⟨hnc, C5_jacobian_shape_entries oneObs srcOne hnc⟩

/-- C6: on a fitted state, `predict` succeeds and returns one value
per query point (the broadcast shape of three equal-length flat query
arrays is their common length); the value at query point i is the sum
over sources j of the coefficient times the inverse distance. -/
theorem C6_predict_shape_values (m : ModelState) (c pts : Coords) (coefs : List ℝ)
    (hc : m.coefs_ = some coefs) (hp : m.points_ = some pts)
    (hn : c.north.length = c.size) (hv : c.vertical.length = c.size) :
    HarmonicEQL_predict m c = Except.ok (predict_numba c pts coefs) ∧
    (predict_numba c pts coefs).length = c.size ∧
    ∀ i, i < c.size →
      (predict_numba c pts coefs).getD i 0
        = ∑ j in Finset.range pts.size,
            coefs.getD j 0
              * (1 / distance (c.east.getD i 0) (c.north.getD i 0) (c.vertical.getD i 0)
                  (pts.east.getD j 0) (pts.north.getD j 0) (pts.vertical.getD j 0)) := by
  refine ⟨by simp [HarmonicEQL_predict, hc, hp], by simp [predict_numba], ?_⟩
  intro i hi
  unfold predict_numba
  rw [getD_map_range _ _ _ i hi]
  rw [fold_add_range]
  simp [greens_func]

/-- Witness for C6 on the fitted `prevModel` queried at the origin. -/
theorem C6_predict_shape_values_witness :
    prevModel.coefs_ = some [1] ∧
    prevModel.points_ = some ⟨[9], [9], [-9]⟩ ∧
    oneObs.north.length = oneObs.size ∧
    oneObs.vertical.length = oneObs.size ∧
    (HarmonicEQL_predict prevModel oneObs
        = Except.ok (predict_numba oneObs ⟨[9], [9], [-9]⟩ [1]) ∧
      (predict_numba oneObs ⟨[9], [9], [-9]⟩ [1]).length = oneObs.size ∧
      ∀ i, i < oneObs.size →
        (predict_numba oneObs ⟨[9], [9], [-9]⟩ [1]).getD i 0
          = ∑ j in Finset.range (Coords.size ⟨[9], [9], [-9]⟩),
              List.getD [1] j 0
                * (1 / distance (oneObs.east.getD i 0) (oneObs.north.getD i 0)
                    (oneObs.vertical.getD i 0)
                    (List.getD [9] j 0) (List.getD [9] j 0) (List.getD [-9] j 0))) :=
  ⟨rfl, rfl, rfl, rfl,
    C6_predict_shape_values prevModel oneObs ⟨[9], [9], [-9]⟩ [1] rfl rfl rfl rfl⟩

/-- C2 (amended): `fit` is not atomic.  `region_` (line 97) and
`points_` (lines 99-110) are assigned before the solve at line 112,
so when the solver raises only `coefs_` retains its previous value,
while `points_` and `region_` have already been replaced; on success
all three are replaced. -/
theorem C2_fit_state_update
    (solver : List (List ℝ) → List ℝ → Option (List ℝ) → Option ℝ → Option (List ℝ))
    (m : ModelState) (c : Coords) (data : List ℝ) (w : Option (List ℝ)) :
    (solver (jacobian_matrix c (pointsUsed m c)) data w m.damping = none →
      (HarmonicEQL_fit solver m c data w).2 = false ∧
      (HarmonicEQL_fit solver m c data w).1.coefs_ = m.coefs_ ∧
      (HarmonicEQL_fit solver m c data w).1.points_ = some (pointsUsed m c) ∧
      (HarmonicEQL_fit solver m c data w).1.region_ = some (get_region c)) ∧
    (∀ coefs, solver (jacobian_matrix c (pointsUsed m c)) data w m.damping = some coefs →
      (HarmonicEQL_fit solver m c data w).2 = true ∧
      (HarmonicEQL_fit solver m c data w).1.coefs_ = some coefs ∧
      (HarmonicEQL_fit solver m c data w).1.points_ = some (pointsUsed m c) ∧
      (HarmonicEQL_fit solver m c data w).1.region_ = some (get_region c)) := by
  constructor
  · intro hfail
    simp [HarmonicEQL_fit, hfail]
  · intro coefs hok
    simp [HarmonicEQL_fit, hok]

/-- Witness for C2 (amended) with the always-failing solver on a
previously fitted model. -/
theorem C2_fit_state_update_witness :
    (HarmonicEQL_fit failSolver prevModel oneObs [0] none).2 = false ∧
    (HarmonicEQL_fit failSolver prevModel oneObs [0] none).1.coefs_ = prevModel.coefs_ ∧
    (HarmonicEQL_fit failSolver prevModel oneObs [0] none).1.points_
        = some (pointsUsed prevModel oneObs) ∧
    (HarmonicEQL_fit failSolver prevModel oneObs [0] none).1.region_
        = some (get_region oneObs) :=
  (C2_fit_state_update failSolver prevModel oneObs [0] none).1 rfl

/-- C2 counterexample: refitting a previously fitted model with a
failing solver leaves the model with its `points_` already replaced,
so the fitted state is not left exactly as before the call. -/
theorem C2_counterexample :
    (HarmonicEQL_fit failSolver prevModel oneObs [0] none).2 = false ∧
    (HarmonicEQL_fit failSolver prevModel oneObs [0] none).1.points_ ≠ prevModel.points_ := by
  constructor
  · simp [HarmonicEQL_fit, failSolver]
  · intro h
    rw [fit_installs_points] at h
    norm_num [pointsUsed, prevModel] at h

/-- C4 (amended): before any successful fit `predict` raises
NotFitted, but `jacobian` performs no fitted-state check: it takes
its points explicitly and returns the assembled matrix on any model
state. -/
theorem C4_unfitted_behaviour (m : ModelState) (c pts : Coords)
    (h : m.coefs_ = none) :
    HarmonicEQL_predict m c = Except.error FitError.NotFitted ∧
    HarmonicEQL_jacobian m c pts = Except.ok (jacobian_matrix c pts) :=
  ⟨by simp [HarmonicEQL_predict, h], rfl⟩

/-- Witness for C4 (amended) on a freshly constructed model. -/
theorem C4_unfitted_behaviour_witness :
    unfittedModel.coefs_ = none ∧
    (HarmonicEQL_predict unfittedModel oneObs = Except.error FitError.NotFitted ∧
      HarmonicEQL_jacobian unfittedModel oneObs srcOne
        = Except.ok (jacobian_matrix oneObs srcOne)) :=
  ⟨rfl, C4_unfitted_behaviour unfittedModel oneObs srcOne rfl⟩

/-- C4 counterexample: on a never-fitted model `predict` does raise
NotFitted, but `jacobian` does not: it returns a matrix. -/
theorem C4_counterexample :
    HarmonicEQL_predict unfittedModel oneObs = Except.error FitError.NotFitted ∧
    HarmonicEQL_jacobian unfittedModel oneObs srcOne ≠ Except.error FitError.NotFitted := by
  refine ⟨rfl, ?_⟩
  simp [HarmonicEQL_jacobian]

/-- C7: `jacobian` and `predict` are deterministic functions of their
explicit inputs and the fitted attributes, and neither call mutates
the model state: the post-call state equals the pre-call state, and
two states agreeing on `points_` and `coefs_` give identical
outputs. -/
theorem C7_purity (m₁ m₂ : ModelState) (c pts : Coords)
    (hp : m₁.points_ = m₂.points_) (hc : m₁.coefs_ = m₂.coefs_) :
    (predict_call m₁ c).1 = (predict_call m₂ c).1 ∧
    (predict_call m₁ c).2 = m₁ ∧
    (jacobian_call m₁ c pts).1 = (jacobian_call m₂ c pts).1 ∧
    (jacobian_call m₁ c pts).2 = m₁ := by
  refine ⟨?_, rfl, rfl, rfl⟩
  simp [predict_call, HarmonicEQL_predict, hp, hc]

/-- Witness for C7 comparing two calls on the same fitted model. -/
theorem C7_purity_witness :
    prevModel.points_ = prevModel.points_ ∧
    prevModel.coefs_ = prevModel.coefs_ ∧
    ((predict_call prevModel oneObs).1 = (predict_call prevModel oneObs).1 ∧
      (predict_call prevModel oneObs).2 = prevModel ∧
      (jacobian_call prevModel oneObs srcOne).1 = (jacobian_call prevModel oneObs srcOne).1 ∧
      (jacobian_call prevModel oneObs srcOne).2 = prevModel) :=
  ⟨rfl, rfl, C7_purity prevModel prevModel oneObs srcOne rfl rfl⟩

/-- C10: the default placement block of `fit` never writes into the
observation buffers: every write targets a buffer allocated inside
the call (the `.copy()` results and the nearest-distance scratch), so
after the call each observation buffer holds exactly its previous
contents. -/
theorem C10_fit_frame (h₀ : Heap) (eid nid vid : ℕ) (df : ℝ)
    (he : eid < h₀.fresh) (hn : nid < h₀.fresh) (hv : vid < h₀.fresh) :
    (fitPlacementHeap h₀ eid nid vid df).1.arrays eid = h₀.arrays eid ∧
    (fitPlacementHeap h₀ eid nid vid df).1.arrays nid = h₀.arrays nid ∧
    (fitPlacementHeap h₀ eid nid vid df).1.arrays vid = h₀.arrays vid := by
  refine ⟨?_, ?_, ?_⟩ <;>
    · simp only [fitPlacementHeap, Heap.alloc, Heap.write]
      split_ifs <;> first | rfl | omega

/-- Witness for C10 on a concrete three-buffer store. -/
theorem C10_fit_frame_witness :
    0 < Heap.fresh ⟨fun _ => [0], 3⟩ ∧
    1 < Heap.fresh ⟨fun _ => [0], 3⟩ ∧
    2 < Heap.fresh ⟨fun _ => [0], 3⟩ ∧
    ((fitPlacementHeap ⟨fun _ => [0], 3⟩ 0 1 2 3).1.arrays 0
        = Heap.arrays ⟨fun _ => [0], 3⟩ 0 ∧
      (fitPlacementHeap ⟨fun _ => [0], 3⟩ 0 1 2 3).1.arrays 1
        = Heap.arrays ⟨fun _ => [0], 3⟩ 1 ∧
      (fitPlacementHeap ⟨fun _ => [0], 3⟩ 0 1 2 3).1.arrays 2
        = Heap.arrays ⟨fun _ => [0], 3⟩ 2) :=
  ⟨by norm_num, by norm_num, by norm_num,
    C10_fit_frame ⟨fun _ => [0], 3⟩ 0 1 2 3 (by norm_num) (by norm_num) (by norm_num)⟩
